import Mathlib

/-!
Verification of the mrv2 viewport pixel-analysis and annotation-compositing
core (`src/mrViewer/lib/mrvGL/mrvGLViewport.cpp`) against its specification.

The C++ source is shallowly embedded: machine arithmetic is modelled over
`Nat`/`Int` with explicit divisions, float arithmetic over `ℚ` (the exact
real-number semantics of the source expressions), buffers as functions from
byte index to byte value, and the stateful draw path as explicit state
passing.  External helper routines of the repository that live outside the
viewport file (half/float bit decoding, `color::checkLevels`,
`color::YPbPr::to_rgb`, the secondary-colorspace conversions and
`calculate_brightness`) are abstracted as explicit function parameters, so
every theorem about call order or data flow holds for every semantics of
those helpers.
-/

/-- A decoded pixel sample, the embedding of `imaging::Color4f`. -/
structure Color where
  r : ℚ
  g : ℚ
  b : ℚ
  a : ℚ
deriving DecidableEq, Repr

/-- Embedding of `imaging::VideoLevels` (tlRender). -/
inductive VideoLevels where
  | FullRange
  | LegalRange
deriving DecidableEq, Repr

/-- A YUV coefficients 4-vector, the embedding of `math::Vector4f` as
returned by `getYUVCoefficients`. -/
structure Coeffs where
  x : ℚ
  y : ℚ
  z : ℚ
  w : ℚ
deriving DecidableEq, Repr

/-!
## Annotation ghosting (`Viewport::_drawAnnotations`, lines 640-716)

The C++ loop computing `alphamult` for one annotation record:

    float alphamult = 0.F;
    if ( frame == annotationFrame || annotation->allFrames() ) alphamult = 1.F;
    else
    {
        if ( p.ghostPrevious )
        {
            for ( short i = p.ghostPrevious-1; i > 0; --i )
            {
                if ( frame - i == annotationFrame )
                {
                    alphamult = 1.F - (float)i/p.ghostPrevious;
                    break;
                }
            }
        }
        if ( p.ghostNext )
        {
            for ( short i = 1; i < p.ghostNext; ++i )
            {
                if ( frame + i == annotationFrame )
                {
                    alphamult = 1.F - (float)i/p.ghostNext;
                    break;
                }
            }
        }
    }
-/

/-- The descending previous-window scan: `for (short i = k; i > 0; --i)`
with body `if (frame - i == annotationFrame) { alphamult = 1 - i/gp; break; }`.
The argument of the recursion is the current loop counter `i`; the loop
exits with value `0` (the initial `alphamult`) when no `i` matches. -/
def prevScan (frame annoFrame : ℤ) (gp : ℕ) : ℕ → ℚ
  | 0 => 0
  | k + 1 =>
      if frame - ((k + 1 : ℕ) : ℤ) = annoFrame then 1 - ((k + 1 : ℕ) : ℚ) / (gp : ℚ)
      else prevScan frame annoFrame gp k

/-- The ascending next-window scan: `for (short i = 1; i < gn; ++i)` with
body `if (frame + i == annotationFrame) { alphamult = 1 - i/gn; break; }`.
`acc` is the value `alphamult` holds when the loop is entered (the previous
scan's result); it is returned unchanged when no `i` matches.  `fuel`
bounds the number of remaining iterations and is instantiated with `gn`,
which the loop never exceeds. -/
def nextScanFrom (frame annoFrame : ℤ) (gn : ℕ) (acc : ℚ) : ℕ → ℕ → ℚ
  | _, 0 => acc
  | i, fuel + 1 =>
      if i < gn then
        if frame + (i : ℤ) = annoFrame then 1 - (i : ℚ) / (gn : ℚ)
        else nextScanFrom frame annoFrame gn acc (i + 1) fuel
      else acc

/-- The per-annotation alpha multiplier of `Viewport::_drawAnnotations`
(lines 642-669).  `gp`, `gn` are `p.ghostPrevious`, `p.ghostNext`; the
C++ `if (p.ghostPrevious)` / `if (p.ghostNext)` nonzero tests guard each
scan, and the next scan overwrites the result of the previous scan only
when it matches. -/
def alphamult (frame annoFrame : ℤ) (allFrames : Bool) (gp gn : ℕ) : ℚ :=
  if frame = annoFrame ∨ allFrames = true then 1
  else
    let a1 : ℚ := if gp ≠ 0 then prevScan frame annoFrame gp (gp - 1) else 0
    if gn ≠ 0 then nextScanFrom frame annoFrame gn a1 1 gn else a1

/-- A drawable shape as the compositor sees it: its stored colour alpha
(`shape->color.a`), an identifier standing for the shape's identity in the
stored sequence, and whether the shape is a `GL2TextShape` (those are
skipped by `_drawAnnotations` when the `USE_OPENGL2` build flag is set and
drawn by `_drawAnnotationsGL2` instead). -/
structure Shape where
  sid : ℕ
  alpha : ℚ
  isGL2Text : Bool
deriving DecidableEq, Repr

/-- Embedding of one annotation record as consumed by the compositor. -/
structure AnnoRecord where
  frame : ℤ
  allFrames : Bool
  shapes : List Shape
deriving DecidableEq, Repr

/-- One emitted draw call: which shape was drawn and with which effective
colour alpha (`shape->color.a` at the moment `shape->draw` runs). -/
structure DrawEvent where
  sid : ℕ
  alpha : ℚ
deriving DecidableEq, Repr

/-- One iteration of the shape loop body (lines 708-712):

    float a = shape->color.a;
    shape->color.a *= alphamult;
    shape->draw( gl.render );
    shape->color.a = a;

returns the emitted draw event together with the shape's state after the
restoring assignment. -/
def drawShapeStep (m : ℚ) (s : Shape) : DrawEvent × Shape :=
  let a := s.alpha
  let s1 : Shape := { s with alpha := s.alpha * m }
  (⟨s1.sid, s1.alpha⟩, { s1 with alpha := a })

/-- Whether `_drawAnnotations` draws this shape: under the `USE_OPENGL2`
build (`useGL2 = true`) `GL2TextShape` shapes are skipped with `continue`
(line 682-683); in the OpenGL 3 build every shape is drawn. -/
def shapeDrawn (useGL2 : Bool) (s : Shape) : Bool :=
  !(useGL2 && s.isGL2Text)

/-- The reverse shape loop of lines 674-713 applied to one annotation
record: shapes are visited in reverse stored order
(`shapes.rbegin() .. shapes.rend()`); skipped shapes are left untouched;
drawn shapes go through the mutate-draw-restore step.  Returns the draw
events in emission order and the record's state after the loop (the
reversal is undone because the list positions themselves are never
moved by the C++ loop). -/
def compositeAnnoRecord (useGL2 : Bool) (frame : ℤ) (gp gn : ℕ) (anno : AnnoRecord) :
    List DrawEvent × AnnoRecord :=
  let m := alphamult frame anno.frame anno.allFrames gp gn
  if m = 0 then ([], anno)
  else
    let steps := anno.shapes.reverse.map fun s =>
      if shapeDrawn useGL2 s then
        let st := drawShapeStep m s
        ([st.1], st.2)
      else ([], s)
    ((steps.map Prod.fst).flatten, { anno with shapes := (steps.map Prod.snd).reverse })

/-!
## Pixel decoding (`Viewport::_getPixelValue`, lines 775-1053)

The buffer is the byte array `image->getData()`; multi-byte reads model the
C++ pointer casts `(uint16_t*)`, `(uint32_t*)` on the little-endian targets
the program runs on.  `half`/`float` reinterpretations are abstracted by
the parameters `halfOfBits`/`floatOfBits` mapping the bit pattern of one
element to its real value.
-/

/-- The pixel-format tags handled by `_getPixelValue`
(tlRender `imaging::PixelType`). -/
inductive PixelType where
  | L_U8 | LA_U8 | L_U16 | LA_U16 | L_U32 | LA_U32 | L_F16 | LA_F16
  | RGB_U8 | RGB_U10 | RGBA_U8 | RGB_U16 | RGBA_U16 | RGB_U32 | RGBA_U32
  | RGB_F16 | RGBA_F16 | RGB_F32 | RGBA_F32
  | YUV_420P_U8 | YUV_422P_U8 | YUV_444P_U8
  | YUV_420P_U16 | YUV_422P_U16 | YUV_444P_U16
deriving DecidableEq, Repr

open PixelType

/-- Channel count of each format, the value of tlRender's
`imaging::getChannelCount` for the handled formats. -/
def channelCount : PixelType → ℕ
  | L_U8 | L_U16 | L_U32 | L_F16 => 1
  | LA_U8 | LA_U16 | LA_U32 | LA_F16 => 2
  | RGB_U8 | RGB_U10 | RGB_U16 | RGB_U32 | RGB_F16 | RGB_F32 => 3
  | RGBA_U8 | RGBA_U16 | RGBA_U32 | RGBA_F16 | RGBA_F32 => 4
  | YUV_420P_U8 | YUV_422P_U8 | YUV_444P_U8 => 3
  | YUV_420P_U16 | YUV_422P_U16 | YUV_444P_U16 => 3

/-- Bit depth of each format, the value of tlRender's
`imaging::getBitDepth` for the handled formats. -/
def bitDepth : PixelType → ℕ
  | L_U8 | LA_U8 | RGB_U8 | RGBA_U8 => 8
  | L_U16 | LA_U16 | RGB_U16 | RGBA_U16 => 16
  | L_U32 | LA_U32 | RGB_U32 | RGBA_U32 => 32
  | L_F16 | LA_F16 | RGB_F16 | RGBA_F16 => 16
  | RGB_F32 | RGBA_F32 => 32
  | RGB_U10 => 10
  | YUV_420P_U8 | YUV_422P_U8 | YUV_444P_U8 => 8
  | YUV_420P_U16 | YUV_422P_U16 | YUV_444P_U16 => 16

/-- The planar YUV formats, for which the `switch` at lines 801-814 skips
the `offset *= channels` of the interleaved default case. -/
def isPlanarYUV : PixelType → Bool
  | YUV_420P_U8 | YUV_422P_U8 | YUV_444P_U8 => true
  | YUV_420P_U16 | YUV_422P_U16 | YUV_444P_U16 => true
  | _ => false

/-- An image as `_getPixelValue` consumes it: format tag, size, the raw
byte buffer, and the video-levels and YUV-coefficients metadata of
`image->getInfo()` (the coefficients vector is the result of the
`getYUVCoefficients` lookup on the info's enum). -/
structure Image where
  pixelType : PixelType
  w : ℕ
  h : ℕ
  data : ℕ → ℕ
  videoLevels : VideoLevels
  yuvCoefficients : Coeffs

/-- Little-endian 16-bit element read: the C++ `((uint16_t*)(&data[off]))[j]`. -/
def rd16 (img : Image) (off j : ℕ) : ℕ :=
  img.data (off + 2 * j) + 256 * img.data (off + 2 * j + 1)

/-- Little-endian 32-bit element read: the C++ `((uint32_t*)(&data[off]))[j]`. -/
def rd32 (img : Image) (off j : ℕ) : ℕ :=
  img.data (off + 4 * j) + 256 * img.data (off + 4 * j + 1) +
    65536 * img.data (off + 4 * j + 2) + 16777216 * img.data (off + 4 * j + 3)

/-- The 10-bit fields of tlRender's packed `imaging::U10` word
(little-endian `U10_LSB` layout: two padding bits at the least-significant
end, then `b`, `g`, `r`). -/
def u10b (word : ℕ) : ℕ := word / 4 % 1024

/-- Green field of the packed `imaging::U10` word. -/
def u10g (word : ℕ) : ℕ := word / 4096 % 1024

/-- Red field of the packed `imaging::U10` word. -/
def u10r (word : ℕ) : ℕ := word / 4194304 % 1024

/-- The probe coordinate computed at lines 790-793: the Y axis is flipped
from the image-space input, then each mirrored axis is reflected as
`size - coord - 1`. -/
def probeCoord (img : Image) (mirrorX mirrorY : Bool) (pos : ℤ × ℤ) : ℤ × ℤ :=
  let X0 : ℤ := pos.1
  let Y0 : ℤ := (img.h : ℤ) - pos.2 - 1
  (if mirrorX then (img.w : ℤ) - X0 - 1 else X0,
   if mirrorY then (img.h : ℤ) - Y0 - 1 else Y0)

/-- The raw, normalized Y/U/V triple extracted by the planar YUV cases of
lines 978-1048, before `color::checkLevels` and `color::YPbPr::to_rgb`
run; the alpha is the `rgba.a = 1.0f` assigned at line 816.  `X`, `Y` are
the in-range probe coordinates and `off` the byte offset
`(Y*w + X) * depth` computed at line 799. -/
def yuvRaw (img : Image) (X Y off : ℕ) : Color :=
  let w := img.w
  let h := img.h
  let d := img.data
  match img.pixelType with
  | YUV_420P_U8 =>
      let Ysize := w * h
      let w2 := (w + 1) / 2
      let h2 := (h + 1) / 2
      let Usize := w2 * h2
      let off2 := Y / 2 * w2 + X / 2
      ⟨(d off : ℚ) / 255, (d (Ysize + off2) : ℚ) / 255,
       (d (Ysize + Usize + off2) : ℚ) / 255, 1⟩
  | YUV_422P_U8 =>
      let Ysize := w * h
      let w2 := (w + 1) / 2
      let Usize := w2 * h
      let off2 := Y * w2 + X / 2
      ⟨(d off : ℚ) / 255, (d (Ysize + off2) : ℚ) / 255,
       (d (Ysize + Usize + off2) : ℚ) / 255, 1⟩
  | YUV_444P_U8 =>
      let Ysize := w * h
      ⟨(d off : ℚ) / 255, (d (Ysize + off) : ℚ) / 255,
       (d (Ysize * 2 + off) : ℚ) / 255, 1⟩
  | YUV_420P_U16 =>
      let p2 := Y * w / 4 + X / 2
      let Ysize := w * h
      let Usize := Ysize / 4
      ⟨(d off : ℚ) / 65535, (d (Ysize + p2) : ℚ) / 65535,
       (d (Ysize + Usize + p2) : ℚ) / 65535, 1⟩
  | YUV_422P_U16 =>
      let depth := bitDepth YUV_422P_U16 / 8
      let Ysize := w * h * depth
      let p2 := Y * w + X
      let Usize := w / 2 * h * depth
      ⟨(d off : ℚ) / 65535, (d (Ysize + p2) : ℚ) / 65535,
       (d (Ysize + Usize + p2) : ℚ) / 65535, 1⟩
  | YUV_444P_U16 =>
      let depth := bitDepth YUV_444P_U16 / 8
      let Ysize := w * h * depth
      ⟨(d off : ℚ) / 65535, (d (Ysize + off) : ℚ) / 65535,
       (d (Ysize * 2 + off) : ℚ) / 65535, 1⟩
  | _ => ⟨0, 0, 0, 1⟩

/-- The format `switch` of lines 816-1051, entered with the in-range probe
coordinates `X`, `Y`.  `rgba.a = 1.0f` is assigned first; formats without
an alpha channel leave it.  Integer channels are divided by the constant
written in the source: `255.0f`, `65535.0f`, or
`static_cast<float>(std::numeric_limits<uint32_t>::max())` (the latter is
also the divisor of the `RGB_U10` case).  Half/float channels are the
reinterpreted element values.  YUV formats extract the raw triple, then
run `color::checkLevels` and then `color::YPbPr::to_rgb`. -/
def decodeAt (halfOfBits floatOfBits : ℕ → ℚ)
    (checkLevels : Color → VideoLevels → Color)
    (toRGB : Color → Coeffs → Color)
    (img : Image) (X Y : ℕ) (rgba : Color) : Color :=
  let t := img.pixelType
  let d := img.data
  let depth := bitDepth t / 8
  let off0 := (Y * img.w + X) * depth
  let off := if isPlanarYUV t then off0 else off0 * channelCount t
  let rgba1 : Color := { rgba with a := 1 }
  match t with
  | L_U8 =>
      { rgba1 with r := (d off : ℚ) / 255, g := (d off : ℚ) / 255, b := (d off : ℚ) / 255 }
  | LA_U8 =>
      { rgba1 with r := (d off : ℚ) / 255, g := (d off : ℚ) / 255, b := (d off : ℚ) / 255,
                   a := (d (off + 1) : ℚ) / 255 }
  | L_U16 =>
      let f := rd16 img off
      { rgba1 with r := (f 0 : ℚ) / 65535, g := (f 0 : ℚ) / 65535, b := (f 0 : ℚ) / 65535 }
  | LA_U16 =>
      let f := rd16 img off
      { rgba1 with r := (f 0 : ℚ) / 65535, g := (f 0 : ℚ) / 65535, b := (f 0 : ℚ) / 65535,
                   a := (f 1 : ℚ) / 65535 }
  | L_U32 =>
      let f := rd32 img off
      { rgba1 with r := (f 0 : ℚ) / 4294967295, g := (f 0 : ℚ) / 4294967295,
                   b := (f 0 : ℚ) / 4294967295 }
  | LA_U32 =>
      let f := rd32 img off
      { rgba1 with r := (f 0 : ℚ) / 4294967295, g := (f 0 : ℚ) / 4294967295,
                   b := (f 0 : ℚ) / 4294967295, a := (f 1 : ℚ) / 4294967295 }
  | L_F16 =>
      let f := rd16 img off
      { rgba1 with r := halfOfBits (f 0), g := halfOfBits (f 0), b := halfOfBits (f 0) }
  | LA_F16 =>
      let f := rd16 img off
      { rgba1 with r := halfOfBits (f 0), g := halfOfBits (f 0), b := halfOfBits (f 0),
                   a := halfOfBits (f 1) }
  | RGB_U8 =>
      { rgba1 with r := (d off : ℚ) / 255, g := (d (off + 1) : ℚ) / 255,
                   b := (d (off + 2) : ℚ) / 255 }
  | RGB_U10 =>
      let word := rd32 img off 0
      { rgba1 with r := (u10r word : ℚ) / 4294967295, g := (u10g word : ℚ) / 4294967295,
                   b := (u10b word : ℚ) / 4294967295 }
  | RGBA_U8 =>
      { rgba1 with r := (d off : ℚ) / 255, g := (d (off + 1) : ℚ) / 255,
                   b := (d (off + 2) : ℚ) / 255, a := (d (off + 3) : ℚ) / 255 }
  | RGB_U16 =>
      let f := rd16 img off
      { rgba1 with r := (f 0 : ℚ) / 65535, g := (f 1 : ℚ) / 65535, b := (f 2 : ℚ) / 65535 }
  | RGBA_U16 =>
      let f := rd16 img off
      { rgba1 with r := (f 0 : ℚ) / 65535, g := (f 1 : ℚ) / 65535, b := (f 2 : ℚ) / 65535,
                   a := (f 3 : ℚ) / 65535 }
  | RGB_U32 =>
      let f := rd32 img off
      { rgba1 with r := (f 0 : ℚ) / 4294967295, g := (f 1 : ℚ) / 4294967295,
                   b := (f 2 : ℚ) / 4294967295 }
  | RGBA_U32 =>
      let f := rd32 img off
      { rgba1 with r := (f 0 : ℚ) / 4294967295, g := (f 1 : ℚ) / 4294967295,
                   b := (f 2 : ℚ) / 4294967295, a := (f 3 : ℚ) / 4294967295 }
  | RGB_F16 =>
      let f := rd16 img off
      { rgba1 with r := halfOfBits (f 0), g := halfOfBits (f 1), b := halfOfBits (f 2) }
  | RGBA_F16 =>
      let f := rd16 img off
      { rgba1 with r := halfOfBits (f 0), g := halfOfBits (f 1), b := halfOfBits (f 2),
                   a := halfOfBits (f 3) }
  | RGB_F32 =>
      let f := rd32 img off
      { rgba1 with r := floatOfBits (f 0), g := floatOfBits (f 1), b := floatOfBits (f 2) }
  | RGBA_F32 =>
      let f := rd32 img off
      { rgba1 with r := floatOfBits (f 0), g := floatOfBits (f 1), b := floatOfBits (f 2),
                   a := floatOfBits (f 3) }
  | YUV_420P_U8 | YUV_422P_U8 | YUV_444P_U8
  | YUV_420P_U16 | YUV_422P_U16 | YUV_444P_U16 =>
      toRGB (checkLevels (yuvRaw img X Y off) img.videoLevels) img.yuvCoefficients

/-- Embedding of `Viewport::_getPixelValue` (lines 775-1053).  `rgba` is
the caller's in-out sample; when the probe coordinate lands outside the
image the function returns it unchanged (the sanity check at lines
795-797 runs before any assignment to `rgba`). -/
def getPixelValue (halfOfBits floatOfBits : ℕ → ℚ)
    (checkLevels : Color → VideoLevels → Color)
    (toRGB : Color → Coeffs → Color)
    (img : Image) (mirrorX mirrorY : Bool) (pos : ℤ × ℤ) (rgba : Color) : Color :=
  let c := probeCoord img mirrorX mirrorY pos
  if c.1 < 0 ∨ c.2 < 0 ∨ c.1 ≥ (img.w : ℤ) ∨ c.2 ≥ (img.h : ℤ) then rgba
  else decodeAt halfOfBits floatOfBits checkLevels toRGB img c.1.toNat c.2.toNat rgba

/-!
## Color-area statistics (`Viewport::_calculateColorArea`, lines 1085-1238)
and the selection fragment of `Viewport::draw` (lines 402-430)
-/

/-- Embedding of tlRender's `math::BBox2i` (external dependency): an
integer box stored as its two corner points.  tlRender's integer box is
pixel-inclusive: `w() = max.x - min.x + 1`, `h() = max.y - min.y + 1`. -/
structure BBox2i where
  minx : ℤ
  miny : ℤ
  maxx : ℤ
  maxy : ℤ
deriving DecidableEq, Repr

/-- tlRender `BBox2i::w()`. -/
def BBox2i.w (box : BBox2i) : ℤ := box.maxx - box.minx + 1

/-- tlRender `BBox2i::h()`. -/
def BBox2i.h (box : BBox2i) : ℤ := box.maxy - box.miny + 1

/-- Min/max/mean/diff over a region for one colour representation, the
embedding of the `rgba` and `hsv` halves of `mrv::area::Info`. -/
structure RegionStats where
  min : Color
  max : Color
  mean : Color
  diff : Color
deriving DecidableEq, Repr

/-- Embedding of `mrv::area::Info`: the analysed box plus RGBA and
secondary-colorspace statistics. -/
structure AreaInfo where
  box : BBox2i
  rgba : RegionStats
  hsv : RegionStats
deriving DecidableEq, Repr

/-- Exact value of `std::numeric_limits<float>::max()`, used to initialise
the running minima at lines 1099-1102. -/
def fltMax : ℚ := (2 - 2 ^ (23 : ℕ) * ((2 : ℚ) ^ (46 : ℕ))⁻¹) * 2 ^ (127 : ℕ)

/-- Exact value of `std::numeric_limits<float>::min()` (the smallest
positive normal float), used to initialise the running maxima at lines
1094-1097. -/
def fltMin : ℚ := ((2 : ℚ) ^ (126 : ℕ))⁻¹

/-- The statistics reset of lines 1094-1119: both running maxima are set
to `FLT_MIN`, both running minima to `FLT_MAX`, both running means to 0;
`box` and `diff` are not touched here. -/
def resetStats (info : AreaInfo) : AreaInfo :=
  { info with
    rgba := { info.rgba with
              max := ⟨fltMin, fltMin, fltMin, fltMin⟩,
              min := ⟨fltMax, fltMax, fltMax, fltMax⟩,
              mean := ⟨0, 0, 0, 0⟩ },
    hsv := { info.hsv with
             max := ⟨fltMin, fltMin, fltMin, fltMin⟩,
             min := ⟨fltMax, fltMax, fltMax, fltMax⟩,
             mean := ⟨0, 0, 0, 0⟩ } }

/-- Componentwise running minimum, the `if (c < min) min = c` chains. -/
def accMin (m c : Color) : Color :=
  ⟨if c.r < m.r then c.r else m.r, if c.g < m.g then c.g else m.g,
   if c.b < m.b then c.b else m.b, if c.a < m.a then c.a else m.a⟩

/-- Componentwise running maximum, the `if (c > max) max = c` chains. -/
def accMax (m c : Color) : Color :=
  ⟨if c.r > m.r then c.r else m.r, if c.g > m.g then c.g else m.g,
   if c.b > m.b then c.b else m.b, if c.a > m.a then c.a else m.a⟩

/-- Componentwise sum, the `mean += c` accumulations. -/
def addColor (m c : Color) : Color := ⟨m.r + c.r, m.g + c.g, m.b + c.b, m.a + c.a⟩

/-- The clamp of lines 1152-1157: r, g, b are clamped to `[0,1]`; alpha is
not clamped. -/
def clamp01 (c : Color) : Color :=
  let cl : ℚ → ℚ := fun v => if v > 1 then 1 else if v < 0 then 0 else v
  ⟨cl c.r, cl c.g, cl c.b, c.a⟩

/-- The BGRA pixel fetch of lines 1131-1134 from the mapped float buffer:
`gl.image[(X + Y*renderSize.w)*4]` is blue, `+1` green, `+2` red, `+3`
alpha. -/
def pixelAt (image : ℤ → ℚ) (W X Y : ℤ) : Color :=
  ⟨image ((X + Y * W) * 4 + 2), image ((X + Y * W) * 4 + 1),
   image ((X + Y * W) * 4), image ((X + Y * W) * 4 + 3)⟩

/-- The loop body of lines 1126-1215 for one pixel: accumulate unclamped
RGBA statistics, clamp, convert to the selected secondary colorspace
(`toSec`, the `switch` over `hsv_colorspace`), overwrite its alpha with
the selected brightness (`brightOf`, `calculate_brightness`), accumulate
secondary statistics. -/
def statStep (toSec : Color → Color) (brightOf : Color → ℚ)
    (image : ℤ → ℚ) (W : ℤ) (info : AreaInfo) (Y X : ℤ) : AreaInfo :=
  let rgba := pixelAt image W X Y
  let info := { info with rgba :=
    { info.rgba with mean := addColor info.rgba.mean rgba,
                     min := accMin info.rgba.min rgba,
                     max := accMax info.rgba.max rgba } }
  let rgbaC := clamp01 rgba
  let hsv0 := toSec rgbaC
  let hsv : Color := { hsv0 with a := brightOf rgbaC }
  { info with hsv :=
    { info.hsv with mean := addColor info.hsv.mean hsv,
                    min := accMin info.hsv.min hsv,
                    max := accMax info.hsv.max hsv } }

/-- The half-open integer interval `[lo, hi)` as a list, the iteration
space of a `for (v = lo; v < hi; ++v)` loop. -/
def intRange (lo hi : ℤ) : List ℤ :=
  (List.range (hi - lo).toNat).map fun k => lo + (k : ℤ)

/-- Embedding of `Viewport::_calculateColorArea`.  `image` is `gl.image`
(the mapped readback buffer, `none` when `glMapBuffer` was not run or
failed), `W` is `renderSize.w`.  On a null image the function returns at
line 1090 before touching `info`.  Otherwise it resets the statistics,
folds the double loop `Y ∈ [box.min.y, box.max.y)`,
`X ∈ [box.min.x, box.max.x)`, then divides the means by
`num = box.w() * box.h()` and sets `diff = max - min` (lines 1218-1237). -/
def calculateColorArea (toSec : Color → Color) (brightOf : Color → ℚ)
    (image : Option (ℤ → ℚ)) (W : ℤ) (info : AreaInfo) : AreaInfo :=
  match image with
  | none => info
  | some img =>
    let info0 := resetStats info
    let maxX := info0.box.maxx
    let maxY := info0.box.maxy
    let info1 := (intRange info0.box.miny maxY).foldl
      (fun acc Y => (intRange info0.box.minx maxX).foldl
        (fun acc2 X => statStep toSec brightOf img W acc2 Y X) acc) info0
    let num : ℚ := ((info1.box.w * info1.box.h : ℤ) : ℚ)
    { info1 with
      rgba := { info1.rgba with
                mean := ⟨info1.rgba.mean.r / num, info1.rgba.mean.g / num,
                         info1.rgba.mean.b / num, info1.rgba.mean.a / num⟩,
                diff := ⟨info1.rgba.max.r - info1.rgba.min.r,
                         info1.rgba.max.g - info1.rgba.min.g,
                         info1.rgba.max.b - info1.rgba.min.b,
                         info1.rgba.max.a - info1.rgba.min.a⟩ },
      hsv := { info1.hsv with
               mean := ⟨info1.hsv.mean.r / num, info1.hsv.mean.g / num,
                        info1.hsv.mean.b / num, info1.hsv.mean.a / num⟩,
               diff := ⟨info1.hsv.max.r - info1.hsv.min.r,
                        info1.hsv.max.g - info1.hsv.min.g,
                        info1.hsv.max.b - info1.hsv.min.b,
                        info1.hsv.max.a - info1.hsv.min.a⟩ } }

/-- The corner normalization of lines 406-417: swap x corners when
`min.x > max.x`, then swap y corners when `min.y > max.y`. -/
def normalizeSelection (sel : BBox2i) : BBox2i :=
  let s1 := if sel.minx > sel.maxx then
    { sel with minx := sel.maxx, maxx := sel.minx } else sel
  if s1.miny > s1.maxy then { s1 with miny := s1.maxy, maxy := s1.miny } else s1

/-- The selection fragment of `Viewport::draw` (lines 402-430) with the
colour-area tool open.  `mapResult` is what `glMapBuffer` would produce
inside `_bindReadImage`.  The fragment assigns `p.colorAreaInfo.box`,
normalizes and maps only when `selection.min != selection.max` (otherwise
`gl.image = nullptr`), then invokes `_calculateColorArea` whenever the
colour-area tool exists.  The boolean of the result records whether
`_calculateColorArea` was invoked. -/
def drawColorAnalysis (toSec : Color → Color) (brightOf : Color → ℚ)
    (sel : BBox2i) (mapResult : Option (ℤ → ℚ)) (colorAreaToolOpen : Bool)
    (W : ℤ) (info : AreaInfo) : AreaInfo × Bool :=
  let boxAndImage :=
    if (sel.minx, sel.miny) ≠ (sel.maxx, sel.maxy) then
      (normalizeSelection sel, mapResult)
    else (sel, (none : Option (ℤ → ℚ)))
  let info1 : AreaInfo := { info with box := boxAndImage.1 }
  if colorAreaToolOpen then
    (calculateColorArea toSec brightOf boxAndImage.2 W info1, true)
  else (info1, false)

/-!
## GPU readback ring (`Viewport::_bindReadImage`, lines 1055-1083)
-/

/-- The double-buffer readback state: the two PBO slot indices of
`Viewport::GLPrivate` (`index`, `nextIndex`, initialised to 0 and 1) plus,
for each slot, the identifier of the `beginReadback` call whose
`glReadPixels` filled it (0 for the initial empty buffer), and the mapped
buffer `gl.image` as the identifier of the call whose data it holds. -/
structure RingState where
  index : ℕ
  nextIndex : ℕ
  slot0 : ℕ
  slot1 : ℕ
  image : Option ℕ
deriving DecidableEq, Repr

/-- The state after `_initializeGL` (lines 130-133): `index = 0`,
`nextIndex = 1`, both slots holding the initial (call 0) contents and
nothing mapped. -/
def ringInit : RingState := ⟨0, 1, 0, 0, none⟩

/-- One `_bindReadImage` call, identified by `callId`: advance
`index = (index + 1) % 2` and `nextIndex = (index + 1) % 2`, issue
`glReadPixels` into `pboIds[index]` (slot `index` now holds this call's
data; the asynchronous copy completes before that slot is next mapped,
one call later), and map `pboIds[nextIndex]` into `gl.image`. -/
def bindReadImage (s : RingState) (callId : ℕ) : RingState :=
  let ix := (s.index + 1) % 2
  let nx := (ix + 1) % 2
  let slot0 := if ix = 0 then callId else s.slot0
  let slot1 := if ix = 1 then callId else s.slot1
  { index := ix, nextIndex := nx, slot0 := slot0, slot1 := slot1,
    image := some (if nx = 0 then slot0 else slot1) }

/-- The ring state after `n` successive `_bindReadImage` calls (call `k`
carries identifier `k`), starting from the initialised state. -/
def runRing : ℕ → RingState
  | 0 => ringInit
  | n + 1 => bindReadImage (runRing n) (n + 1)

/-!
## Theorems
-/

theorem prevScan_eq (frame annoFrame : ℤ) (gp : ℕ) (k : ℕ) :
    prevScan frame annoFrame gp k =
      if 1 ≤ frame - annoFrame ∧ frame - annoFrame ≤ (k : ℤ) then
        1 - ((frame - annoFrame).toNat : ℚ) / (gp : ℚ)
      else 0 := by
  induction k with
  | zero =>
      rw [prevScan, if_neg]
      omega
  | succ k ih =>
      rw [prevScan]
      by_cases h : frame - ((k + 1 : ℕ) : ℤ) = annoFrame
      · have hd : frame - annoFrame = ((k + 1 : ℕ) : ℤ) := by omega
        rw [if_pos h, if_pos (by omega)]
        rw [hd]
        simp
      · have hne : frame - annoFrame ≠ ((k + 1 : ℕ) : ℤ) := by omega
        rw [if_neg h, ih]
        by_cases hc : 1 ≤ frame - annoFrame ∧ frame - annoFrame ≤ ((k + 1 : ℕ) : ℤ)
        · rw [if_pos (by omega), if_pos hc]
        · rw [if_neg (by omega), if_neg hc]

theorem nextScanFrom_eq (frame annoFrame : ℤ) (gn : ℕ) (acc : ℚ) (fuel : ℕ) :
    ∀ i : ℕ,
      nextScanFrom frame annoFrame gn acc i fuel =
        if (i : ℤ) ≤ annoFrame - frame ∧ annoFrame - frame < (gn : ℤ) ∧
            annoFrame - frame < (i : ℤ) + (fuel : ℤ) then
          1 - ((annoFrame - frame).toNat : ℚ) / (gn : ℚ)
        else acc := by
  induction fuel with
  | zero =>
      intro i
      rw [nextScanFrom, if_neg]
      omega
  | succ fuel ih =>
      intro i
      rw [nextScanFrom]
      by_cases hgn : i < gn
      · rw [if_pos hgn]
        by_cases h : frame + (i : ℤ) = annoFrame
        · have hd : annoFrame - frame = (i : ℤ) := by omega
          rw [if_pos h, if_pos (by omega)]
          rw [hd]
          simp
        · have hne : annoFrame - frame ≠ (i : ℤ) := by omega
          rw [if_neg h, ih (i + 1)]
          by_cases hc : ((i + 1 : ℕ) : ℤ) ≤ annoFrame - frame ∧
              annoFrame - frame < (gn : ℤ) ∧
              annoFrame - frame < ((i + 1 : ℕ) : ℤ) + (fuel : ℤ)
          · rw [if_pos hc, if_pos (by push_cast; push_cast at hc; omega)]
          · rw [if_neg hc, if_neg (by push_cast; push_cast at hc; omega)]
      · rw [if_neg hgn, if_neg]
        omega

/-- Claim C1: for an annotation record not marked allFrames whose frame
differs from the current frame, a frame distance `i` with
`1 ≤ i ≤ ghostPrevious - 1` behind the current frame yields
`alphamult = 1 - i/ghostPrevious`, symmetrically a distance `i` with
`1 ≤ i ≤ ghostNext - 1` ahead yields `1 - i/ghostNext`, and a distance
outside both ghost windows yields `alphamult = 0`, in which case the
compositor skips the annotation entirely: no draw event is emitted and the
record is returned unchanged. -/
theorem ghost_alpha_window (frame annoFrame : ℤ) (gp gn : ℕ) :
    (∀ i : ℕ, 1 ≤ i → (i : ℤ) ≤ (gp : ℤ) - 1 → frame - annoFrame = (i : ℤ) →
        alphamult frame annoFrame false gp gn = 1 - (i : ℚ) / (gp : ℚ)) ∧
    (∀ i : ℕ, 1 ≤ i → (i : ℤ) ≤ (gn : ℤ) - 1 → annoFrame - frame = (i : ℤ) →
        alphamult frame annoFrame false gp gn = 1 - (i : ℚ) / (gn : ℚ)) ∧
    (frame ≠ annoFrame →
      ¬(1 ≤ frame - annoFrame ∧ frame - annoFrame ≤ (gp : ℤ) - 1) →
      ¬(1 ≤ annoFrame - frame ∧ annoFrame - frame ≤ (gn : ℤ) - 1) →
      alphamult frame annoFrame false gp gn = 0 ∧
      ∀ (useGL2 : Bool) (shapes : List Shape),
        compositeAnnoRecord useGL2 frame gp gn ⟨annoFrame, false, shapes⟩ =
          ([], ⟨annoFrame, false, shapes⟩)) := by
  refine ⟨?_, ?_, ?_⟩
  · intro i hi1 hile heq
    have hgp : gp ≠ 0 := by omega
    have hne : ¬(frame = annoFrame ∨ false = true) := by
      simp only [Bool.false_eq_true, or_false]
      omega
    rw [alphamult, if_neg hne]
    simp only [if_pos hgp, ne_eq, hgp, not_false_iff, if_true]
    have hprev : prevScan frame annoFrame gp (gp - 1) = 1 - (i : ℚ) / (gp : ℚ) := by
      rw [prevScan_eq, if_pos (by omega)]
      rw [heq]
      simp
    by_cases hgn : gn ≠ 0
    · simp only [if_pos hgn]
      rw [nextScanFrom_eq, if_neg (by omega), hprev]
    · simp only [if_neg hgn]
      exact hprev
  · intro i hi1 hile heq
    have hgn : gn ≠ 0 := by omega
    have hne : ¬(frame = annoFrame ∨ false = true) := by
      simp only [Bool.false_eq_true, or_false]
      omega
    rw [alphamult, if_neg hne]
    simp only [if_pos hgn, ne_eq, hgn, not_false_iff, if_true]
    have ha1 : (if gp ≠ 0 then prevScan frame annoFrame gp (gp - 1) else 0) = 0 := by
      by_cases hgp : gp ≠ 0
      · rw [if_pos hgp, prevScan_eq, if_neg (by omega)]
      · rw [if_neg hgp]
    rw [ha1, nextScanFrom_eq, if_pos (by omega)]
    rw [heq]
    simp
  · intro hne hprev hnext
    have hor : ¬(frame = annoFrame ∨ false = true) := by
      simp only [Bool.false_eq_true, or_false]
      exact hne
    have hzero : alphamult frame annoFrame false gp gn = 0 := by
      rw [alphamult, if_neg hor]
      have ha1 : (if gp ≠ 0 then prevScan frame annoFrame gp (gp - 1) else 0) = 0 := by
        by_cases hgp : gp ≠ 0
        · rw [if_pos hgp, prevScan_eq, if_neg (by omega)]
        · rw [if_neg hgp]
      by_cases hgn : gn ≠ 0
      · simp only [if_pos hgn]
        rw [nextScanFrom_eq, if_neg (by omega), ha1]
      · simp only [if_neg hgn]
        exact ha1
    refine ⟨hzero, ?_⟩
    intro useGL2 shapes
    rw [compositeAnnoRecord]
    simp [hzero]

/-- Witness for C1: an annotation at frame 10 with ghostPrevious = 5 seen
at frame 12 gets `alphamult = 1 - 2/5 = 3/5`; seen at frame 16 it is
outside both windows, gets `alphamult = 0` and is skipped with no draw
call and no state change. -/
theorem ghost_alpha_window_witness :
    alphamult 12 10 false 5 5 = 3 / 5 ∧
    alphamult 16 10 false 5 5 = 0 ∧
    compositeAnnoRecord false 16 5 5 ⟨10, false, [⟨0, 1, false⟩]⟩ =
      ([], ⟨10, false, [⟨0, 1, false⟩]⟩) := by
  refine ⟨?_, ?_, ?_⟩
  · have h := (ghost_alpha_window 12 10 5 5).1 2 (by decide) (by decide) (by decide)
    rw [h]
    norm_num
  · exact (((ghost_alpha_window 16 10 5 5).2.2 (by decide) (by decide) (by decide))).1
  · exact (((ghost_alpha_window 16 10 5 5).2.2 (by decide) (by decide) (by decide))).2
      false [⟨0, 1, false⟩]

theorem runRing_spec (n : ℕ) (hn : 1 ≤ n) :
    runRing n =
      { index := n % 2, nextIndex := (n + 1) % 2,
        slot0 := if n % 2 = 0 then n else n - 1,
        slot1 := if n % 2 = 1 then n else n - 1,
        image := some (n - 1) } := by
  induction n with
  | zero => omega
  | succ n ih =>
      rcases Nat.eq_zero_or_pos n with h0 | hpos
      · subst h0
        decide
      · rw [runRing, ih hpos, bindReadImage]
        rcases Nat.mod_two_eq_zero_or_one n with h | h
        · have h1 : (n + 1) % 2 = 1 := by omega
          have h2 : (n + 2) % 2 = 0 := by omega
          simp only [h, h1, RingState.mk.injEq]
          rw [show (0 + 1) % 2 = 1 from rfl]
          simp only [if_neg one_ne_zero, if_pos rfl]
          repeat' apply And.intro
          all_goals first | rfl | trivial | omega
        · have h1 : (n + 1) % 2 = 0 := by omega
          have h2 : (n + 2) % 2 = 1 := by omega
          simp only [h, h1, RingState.mk.injEq]
          rw [show (1 + 1) % 2 = 0 from rfl]
          simp only [if_pos rfl, if_neg one_ne_zero]
          repeat' apply And.intro
          all_goals first | rfl | trivial | omega

/-- Claim C2: the readback ring is a two-slot ping-pong with
`nextIndex = (index + 1) % 2` at all times; each `_bindReadImage` call
advances `index` mod 2, reads into slot `index` and maps slot `nextIndex`,
so after `n ≥ 2` calls the mapped buffer holds the data filled by call
`n - 1`, the mapped slot is never the in-flight slot, and the write/read
slot parity is `n % 2` / `(n + 1) % 2`. -/
theorem readback_ring_double_buffer (n : ℕ) (hn : 2 ≤ n) :
    (∀ m : ℕ, (runRing m).nextIndex = ((runRing m).index + 1) % 2) ∧
    (runRing n).image = some (n - 1) ∧
    (runRing n).nextIndex ≠ (runRing n).index ∧
    (runRing n).index = n % 2 ∧
    (runRing n).nextIndex = (n + 1) % 2 := by
  have hspec := runRing_spec n (by omega)
  refine ⟨?_, ?_, ?_, ?_, ?_⟩
  · intro m
    rcases Nat.eq_zero_or_pos m with h0 | hpos
    · subst h0
      rfl
    · rw [runRing_spec m hpos]
      dsimp only
      omega
  · rw [hspec]
  · rw [hspec]
    simp only [ne_eq]
    omega
  · rw [hspec]
  · rw [hspec]

/-- Witness for C2: after six `_bindReadImage` calls the mapped buffer is
the data of call five, the write slot is slot 0 and the read slot is
slot 1. -/
theorem readback_ring_double_buffer_witness :
    2 ≤ 6 ∧ (runRing 6).image = some 5 ∧ (runRing 6).index = 0 ∧
      (runRing 6).nextIndex = 1 := by
  have h := readback_ring_double_buffer 6 (by decide)
  exact ⟨by decide, h.2.1, h.2.2.2.1, h.2.2.2.2⟩

/-- Claim C3 failing input: an `RGB_U10` pixel whose three packed 10-bit
fields all hold the full-scale raw value 1023 (32-bit word `0xFFFFFFFC`,
stored little-endian as bytes FC FF FF FF).  The decoder divides the
fields by `static_cast<float>(std::numeric_limits<uint32_t>::max())`
(the constant of the `U32` cases), so the full-scale sample decodes to
`1023 / 4294967295`, not to the `1.0` that dividing by the 10-bit format
maximum 1023 would produce. -/
theorem u10_divisor_eval :
    (getPixelValue (fun _ => 0) (fun _ => 0) (fun c _ => c) (fun c _ => c)
        ⟨RGB_U10, 1, 1, (fun k => if k = 0 then 252 else if k < 4 then 255 else 0),
         VideoLevels.FullRange, ⟨0, 0, 0, 0⟩⟩ false false (0, 0) ⟨0, 0, 0, 0⟩).r =
      1023 / 4294967295 ∧
    ((1023 : ℚ) / 4294967295 ≠ 1) ∧
    ((1023 : ℚ) / 1023 = 1) := by
  refine ⟨?_, by norm_num, by norm_num⟩
  norm_num [getPixelValue, decodeAt, probeCoord, isPlanarYUV, bitDepth,
    channelCount, rd32, u10r, u10g, u10b]

/-- Claim C4 failing input: a 1-by-1 `YUV_444P_U16` image whose 16-bit
luma sample is `0xFFFF` (bytes FF FF little-endian) followed by zero U and
V planes.  The decoder reads the single byte `data[offset]` and divides it
by `65535.0f`, yielding `255 / 65535`, whereas addressing the luma plane
in 16-bit elements (as every interleaved `U16` case of the same function
does via its `uint16_t*` cast, here `rd16`) yields the full-scale
`65535 / 65535 = 1`. -/
theorem yuv_u16_byte_read_eval :
    (getPixelValue (fun _ => 0) (fun _ => 0) (fun c _ => c) (fun c _ => c)
        ⟨YUV_444P_U16, 1, 1, (fun k => if k < 2 then 255 else 0),
         VideoLevels.FullRange, ⟨0, 0, 0, 0⟩⟩ false false (0, 0) ⟨0, 0, 0, 0⟩).r =
      255 / 65535 ∧
    ((rd16 ⟨YUV_444P_U16, 1, 1, (fun k => if k < 2 then 255 else 0),
        VideoLevels.FullRange, ⟨0, 0, 0, 0⟩⟩ 0 0 : ℚ) / 65535 = 1) ∧
    ((255 : ℚ) / 65535 ≠ 1) := by
  refine ⟨?_, ?_, by norm_num⟩
  · norm_num [getPixelValue, decodeAt, yuvRaw, probeCoord, isPlanarYUV,
      bitDepth, channelCount]
  · norm_num [rd16]

theorem foldl_box (f : AreaInfo → ℤ → AreaInfo) (hf : ∀ a x, (f a x).box = a.box) :
    ∀ (l : List ℤ) (acc : AreaInfo), (l.foldl f acc).box = acc.box := by
  intro l
  induction l with
  | nil => intro acc; rfl
  | cons x xs ih =>
      intro acc
      rw [List.foldl_cons, ih, hf]

theorem calculateColorArea_box (toSec : Color → Color) (brightOf : Color → ℚ)
    (img : ℤ → ℚ) (W : ℤ) (info : AreaInfo) :
    (calculateColorArea toSec brightOf (some img) W info).box = info.box := by
  unfold calculateColorArea
  dsimp only
  exact foldl_box
    (fun acc Y => (intRange (resetStats info).box.minx (resetStats info).box.maxx).foldl
      (fun acc2 X => statStep toSec brightOf img W acc2 Y X) acc)
    (fun a Y => foldl_box (fun acc2 X => statStep toSec brightOf img W acc2 Y X)
      (fun a2 X => rfl) _ a) _ _

/-- Counterexample to claim C5: the selection with corners `min = (5, 0)`,
`max = (4, 3)` is a zero-area region (`w() * h() = 0 * 4 = 0`), yet the
selection fragment of `Viewport::draw` does not reject it: since
`selection.min != selection.max`, the corners are swapped, the readback is
mapped, and `_calculateColorArea` is invoked (the returned flag is
`true`). -/
theorem zero_area_not_rejected :
    BBox2i.w ⟨5, 0, 4, 3⟩ * BBox2i.h ⟨5, 0, 4, 3⟩ = 0 ∧
    (drawColorAnalysis id (fun _ => 0) ⟨5, 0, 4, 3⟩ (some fun _ => 0) true 10
        ⟨⟨0, 0, 0, 0⟩,
         ⟨⟨0, 0, 0, 0⟩, ⟨0, 0, 0, 0⟩, ⟨0, 0, 0, 0⟩, ⟨0, 0, 0, 0⟩⟩,
         ⟨⟨0, 0, 0, 0⟩, ⟨0, 0, 0, 0⟩, ⟨0, 0, 0, 0⟩, ⟨0, 0, 0, 0⟩⟩⟩).2 = true := by
  exact ⟨by decide, rfl⟩

/-- Claim C5 as amended: zero-area selections are not rejected at the call
site; instead any selection with `min != max` is normalized by the corner
swap, so the box with which `_calculateColorArea` computes statistics
always satisfies `w() >= 1` and `h() >= 1` (the box is preserved through
the computation), hence the mean divisor `num = w() * h()` is at least 1
and the division never divides by zero; the point selection
`min == max` leaves the readback unmapped, and `_calculateColorArea`
returns on the null image leaving every statistics field unchanged. -/
theorem selection_swap_guards_division (toSec : Color → Color) (brightOf : Color → ℚ)
    (sel : BBox2i) (mapResult : Option (ℤ → ℚ)) (W : ℤ) (info : AreaInfo) :
    1 ≤ (normalizeSelection sel).w ∧ 1 ≤ (normalizeSelection sel).h ∧
    1 ≤ (normalizeSelection sel).w * (normalizeSelection sel).h ∧
    (∀ (img : ℤ → ℚ) (inf2 : AreaInfo),
      (calculateColorArea toSec brightOf (some img) W inf2).box = inf2.box) ∧
    ((sel.minx, sel.miny) ≠ (sel.maxx, sel.maxy) →
      drawColorAnalysis toSec brightOf sel mapResult true W info =
        (calculateColorArea toSec brightOf mapResult W
          { info with box := normalizeSelection sel }, true)) ∧
    ((sel.minx, sel.miny) = (sel.maxx, sel.maxy) →
      (drawColorAnalysis toSec brightOf sel mapResult true W info).1.rgba = info.rgba ∧
      (drawColorAnalysis toSec brightOf sel mapResult true W info).1.hsv = info.hsv) := by
  have hw : 1 ≤ (normalizeSelection sel).w := by
    simp only [normalizeSelection, BBox2i.w]
    split <;> split <;> (try dsimp only at *) <;> omega
  have hh : 1 ≤ (normalizeSelection sel).h := by
    simp only [normalizeSelection, BBox2i.h]
    split <;> split <;> (try dsimp only at *) <;> omega
  refine ⟨hw, hh, by nlinarith [hw, hh], ?_, ?_, ?_⟩
  · intro img inf2
    exact calculateColorArea_box toSec brightOf img W inf2
  · intro hne
    simp only [drawColorAnalysis, if_pos hne]
    rfl
  · intro heq
    simp only [drawColorAnalysis, heq, ne_eq, not_true_eq_false, if_false, if_pos rfl]
    constructor <;> rfl

/-- Witness for the amended C5: a selection with swapped y corners
(`min = (0,5)`, `max = (9,2)`) is normalized to a box of positive area and
analysed; the point selection `min = max = (3,3)` leaves the statistics
fields unchanged. -/
theorem selection_swap_guards_division_witness :
    1 ≤ (normalizeSelection ⟨0, 5, 9, 2⟩).w * (normalizeSelection ⟨0, 5, 9, 2⟩).h ∧
    drawColorAnalysis id (fun _ => 0) ⟨0, 5, 9, 2⟩ none true 10
        ⟨⟨0, 0, 0, 0⟩,
         ⟨⟨0, 0, 0, 0⟩, ⟨0, 0, 0, 0⟩, ⟨0, 0, 0, 0⟩, ⟨0, 0, 0, 0⟩⟩,
         ⟨⟨0, 0, 0, 0⟩, ⟨0, 0, 0, 0⟩, ⟨0, 0, 0, 0⟩, ⟨0, 0, 0, 0⟩⟩⟩ =
      (calculateColorArea id (fun _ => 0) none 10
        ⟨normalizeSelection ⟨0, 5, 9, 2⟩,
         ⟨⟨0, 0, 0, 0⟩, ⟨0, 0, 0, 0⟩, ⟨0, 0, 0, 0⟩, ⟨0, 0, 0, 0⟩⟩,
         ⟨⟨0, 0, 0, 0⟩, ⟨0, 0, 0, 0⟩, ⟨0, 0, 0, 0⟩, ⟨0, 0, 0, 0⟩⟩⟩, true) ∧
    (drawColorAnalysis id (fun _ => 0) ⟨3, 3, 3, 3⟩ (some fun _ => 1) true 10
        ⟨⟨0, 0, 0, 0⟩,
         ⟨⟨0, 0, 0, 0⟩, ⟨0, 0, 0, 0⟩, ⟨0, 0, 0, 0⟩, ⟨0, 0, 0, 0⟩⟩,
         ⟨⟨0, 0, 0, 0⟩, ⟨0, 0, 0, 0⟩, ⟨0, 0, 0, 0⟩, ⟨0, 0, 0, 0⟩⟩⟩).1.rgba =
      ⟨⟨0, 0, 0, 0⟩, ⟨0, 0, 0, 0⟩, ⟨0, 0, 0, 0⟩, ⟨0, 0, 0, 0⟩⟩ := by
  have h1 := selection_swap_guards_division id (fun _ => 0) ⟨0, 5, 9, 2⟩ none 10
    ⟨⟨0, 0, 0, 0⟩,
     ⟨⟨0, 0, 0, 0⟩, ⟨0, 0, 0, 0⟩, ⟨0, 0, 0, 0⟩, ⟨0, 0, 0, 0⟩⟩,
     ⟨⟨0, 0, 0, 0⟩, ⟨0, 0, 0, 0⟩, ⟨0, 0, 0, 0⟩, ⟨0, 0, 0, 0⟩⟩⟩
  have h2 := selection_swap_guards_division id (fun _ => 0) ⟨3, 3, 3, 3⟩ (some fun _ => 1) 10
    ⟨⟨0, 0, 0, 0⟩,
     ⟨⟨0, 0, 0, 0⟩, ⟨0, 0, 0, 0⟩, ⟨0, 0, 0, 0⟩, ⟨0, 0, 0, 0⟩⟩,
     ⟨⟨0, 0, 0, 0⟩, ⟨0, 0, 0, 0⟩, ⟨0, 0, 0, 0⟩, ⟨0, 0, 0, 0⟩⟩⟩
  exact ⟨h1.2.2.1, h1.2.2.2.2.1 (by decide), (h2.2.2.2.2.2 (by decide)).1⟩

/-- Claim C6: the probe coordinate is flipped and, on each mirrored axis,
reflected as `size - coord - 1`; whenever the resulting coordinate falls
outside `0 <= X < w`, `0 <= Y < h` the decoder returns the caller's sample
completely unchanged, for every image, mirror setting and probe
position. -/
theorem out_of_range_noop (halfOfBits floatOfBits : ℕ → ℚ)
    (checkLevels : Color → VideoLevels → Color) (toRGB : Color → Coeffs → Color)
    (img : Image) (mirrorX mirrorY : Bool) (pos : ℤ × ℤ) (rgba : Color)
    (h : (probeCoord img mirrorX mirrorY pos).1 < 0 ∨
         (probeCoord img mirrorX mirrorY pos).2 < 0 ∨
         (probeCoord img mirrorX mirrorY pos).1 ≥ (img.w : ℤ) ∨
         (probeCoord img mirrorX mirrorY pos).2 ≥ (img.h : ℤ)) :
    getPixelValue halfOfBits floatOfBits checkLevels toRGB img mirrorX mirrorY pos rgba
      = rgba := by
  unfold getPixelValue
  exact if_pos h

/-- Witness for C6: probing position (5, 5) of a mirrored 1-by-1 `L_U8`
image leaves the caller's sample (7, 8, 9, 10) untouched. -/
theorem out_of_range_noop_witness :
    getPixelValue (fun _ => 0) (fun _ => 0) (fun c _ => c) (fun c _ => c)
        ⟨L_U8, 1, 1, fun _ => 0, VideoLevels.FullRange, ⟨0, 0, 0, 0⟩⟩
        true true (5, 5) ⟨7, 8, 9, 10⟩ = ⟨7, 8, 9, 10⟩ :=
  out_of_range_noop (fun _ => 0) (fun _ => 0) (fun c _ => c) (fun c _ => c)
    ⟨L_U8, 1, 1, fun _ => 0, VideoLevels.FullRange, ⟨0, 0, 0, 0⟩⟩
    true true (5, 5) ⟨7, 8, 9, 10⟩ (by decide)

/-- Claim C7: for every planar YUV format and in-range probe coordinate,
and for every semantics of the levels rescale and of the YUV-to-RGB
matrix, the decoded result is exactly
`to_rgb(checkLevels(raw, videoLevels), yuvCoefficients)`: the
`VideoLevels` rescale is applied to the raw normalized triple first and
the matrix multiply second, never the other way around. -/
theorem yuv_levels_before_matrix (halfOfBits floatOfBits : ℕ → ℚ)
    (checkLevels : Color → VideoLevels → Color) (toRGB : Color → Coeffs → Color)
    (img : Image) (mirrorX mirrorY : Bool) (pos : ℤ × ℤ) (rgba : Color)
    (hyuv : isPlanarYUV img.pixelType = true)
    (hin : ¬((probeCoord img mirrorX mirrorY pos).1 < 0 ∨
             (probeCoord img mirrorX mirrorY pos).2 < 0 ∨
             (probeCoord img mirrorX mirrorY pos).1 ≥ (img.w : ℤ) ∨
             (probeCoord img mirrorX mirrorY pos).2 ≥ (img.h : ℤ))) :
    getPixelValue halfOfBits floatOfBits checkLevels toRGB img mirrorX mirrorY pos rgba =
      toRGB (checkLevels
        (yuvRaw img (probeCoord img mirrorX mirrorY pos).1.toNat
          (probeCoord img mirrorX mirrorY pos).2.toNat
          (((probeCoord img mirrorX mirrorY pos).2.toNat * img.w +
              (probeCoord img mirrorX mirrorY pos).1.toNat) *
            (bitDepth img.pixelType / 8)))
        img.videoLevels) img.yuvCoefficients := by
  unfold getPixelValue
  rw [if_neg hin]
  obtain ⟨pt, w, h, data, lv, coef⟩ := img
  cases pt <;> first | rfl | simp [isPlanarYUV] at hyuv

/-- Witness for C7: decoding the 1-by-1 `YUV_444P_U16` image at (0, 0)
with identity levels rescale and identity matrix yields the raw extracted
triple. -/
theorem yuv_levels_before_matrix_witness :
    getPixelValue (fun _ => 0) (fun _ => 0) (fun c _ => c) (fun c _ => c)
        ⟨YUV_444P_U16, 1, 1, (fun k => if k < 2 then 255 else 0),
         VideoLevels.FullRange, ⟨0, 0, 0, 0⟩⟩ false false (0, 0) ⟨0, 0, 0, 0⟩ =
      yuvRaw ⟨YUV_444P_U16, 1, 1, (fun k => if k < 2 then 255 else 0),
         VideoLevels.FullRange, ⟨0, 0, 0, 0⟩⟩ 0 0 0 :=
  yuv_levels_before_matrix (fun _ => 0) (fun _ => 0) (fun c _ => c) (fun c _ => c)
    ⟨YUV_444P_U16, 1, 1, (fun k => if k < 2 then 255 else 0),
     VideoLevels.FullRange, ⟨0, 0, 0, 0⟩⟩ false false (0, 0) ⟨0, 0, 0, 0⟩
    (by decide) (by decide)

theorem compositeSteps_events (m : ℚ) (u : Bool) (l : List Shape) :
    ((l.map fun s => if shapeDrawn u s then
        ([(drawShapeStep m s).1], (drawShapeStep m s).2) else ([], s)).map
      Prod.fst).flatten =
      (l.filter (shapeDrawn u)).map fun s => (⟨s.sid, s.alpha * m⟩ : DrawEvent) := by
  induction l with
  | nil => rfl
  | cons s l ih =>
      by_cases hd : shapeDrawn u s
      · simp only [List.map_cons, if_pos hd, List.flatten_cons, ih,
          List.filter_cons_of_pos hd]
        rfl
      · simp only [List.map_cons, if_neg hd, List.flatten_cons, ih,
          List.filter_cons_of_neg hd, List.nil_append]

theorem compositeSteps_snd (m : ℚ) (u : Bool) (l : List Shape) :
    (l.map fun s => if shapeDrawn u s then
        ([(drawShapeStep m s).1], (drawShapeStep m s).2) else ([], s)).map
      Prod.snd = l := by
  induction l with
  | nil => rfl
  | cons s l ih =>
      by_cases hd : shapeDrawn u s
      · simp only [List.map_cons, if_pos hd, ih]
        rfl
      · simp only [List.map_cons, if_neg hd, ih]

theorem compositeAnnoRecord_eq (useGL2 : Bool) (frame : ℤ) (gp gn : ℕ)
    (anno : AnnoRecord)
    (hm : alphamult frame anno.frame anno.allFrames gp gn ≠ 0) :
    compositeAnnoRecord useGL2 frame gp gn anno =
      ((anno.shapes.reverse.filter (shapeDrawn useGL2)).map fun s =>
        (⟨s.sid, s.alpha * alphamult frame anno.frame anno.allFrames gp gn⟩ : DrawEvent),
       anno) := by
  unfold compositeAnnoRecord
  rw [if_neg hm]
  dsimp only
  rw [compositeSteps_events, compositeSteps_snd, List.reverse_reverse]

/-- Claim C8: for an annotation drawn with nonzero alphamult, the draw
events of `_drawAnnotations` come out in exact reverse of the stored shape
order: the filtered emission sequence is the reverse of the stored
sequence restricted to the drawn shapes, and in the OpenGL 3 build (where
no shape is skipped) it is exactly the reverse of the full stored
sequence, the last-added shape first. -/
theorem shapes_reverse_order (useGL2 : Bool) (frame : ℤ) (gp gn : ℕ)
    (anno : AnnoRecord)
    (hm : alphamult frame anno.frame anno.allFrames gp gn ≠ 0) :
    ((compositeAnnoRecord useGL2 frame gp gn anno).1.map DrawEvent.sid =
      ((anno.shapes.filter (shapeDrawn useGL2)).map Shape.sid).reverse) ∧
    (useGL2 = false →
      (compositeAnnoRecord useGL2 frame gp gn anno).1.map DrawEvent.sid =
        (anno.shapes.map Shape.sid).reverse) := by
  rw [compositeAnnoRecord_eq useGL2 frame gp gn anno hm]
  constructor
  · rw [List.map_map, List.filter_reverse, List.map_reverse]
    rfl
  · intro hu
    subst hu
    have hfil : anno.shapes.filter (shapeDrawn false) = anno.shapes :=
      List.filter_eq_self.mpr fun a _ => by simp [shapeDrawn]
    rw [List.map_map, List.filter_reverse, hfil, List.map_reverse]
    rfl

/-- Witness for C8: an annotation with two shapes at its own frame
(alphamult 1) emits shape 1 before shape 0. -/
theorem shapes_reverse_order_witness :
    (compositeAnnoRecord false 10 5 5
        ⟨10, false, [⟨0, 1 / 2, false⟩, ⟨1, 1, false⟩]⟩).1.map DrawEvent.sid =
      [1, 0] := by
  have h := (shapes_reverse_order false 10 5 5
    ⟨10, false, [⟨0, 1 / 2, false⟩, ⟨1, 1, false⟩]⟩ (by decide)).2 rfl
  rw [h]
  rfl

/-- Claim C9: every emitted draw call uses effective alpha equal to the
shape's stored base alpha times the annotation's alphamult, and after the
compositing loop the annotation record (in particular every shape's stored
alpha) is exactly what it was before: the attenuation is transient. -/
theorem alpha_restore_transient (useGL2 : Bool) (frame : ℤ) (gp gn : ℕ)
    (anno : AnnoRecord) :
    (compositeAnnoRecord useGL2 frame gp gn anno).2 = anno ∧
    (compositeAnnoRecord useGL2 frame gp gn anno).1 =
      (if alphamult frame anno.frame anno.allFrames gp gn = 0 then []
       else (anno.shapes.reverse.filter (shapeDrawn useGL2)).map fun s =>
         (⟨s.sid, s.alpha * alphamult frame anno.frame anno.allFrames gp gn⟩ :
           DrawEvent)) := by
  by_cases hm : alphamult frame anno.frame anno.allFrames gp gn = 0
  · rw [if_pos hm]
    unfold compositeAnnoRecord
    rw [if_pos hm]
    exact ⟨rfl, rfl⟩
  · rw [if_neg hm, compositeAnnoRecord_eq useGL2 frame gp gn anno hm]
    exact ⟨rfl, rfl⟩

/-- Claim C10: when no pixel buffer is mapped (`gl.image == nullptr`),
`_calculateColorArea` returns immediately and every statistics field
(min, max, mean, diff, for both the RGBA and the secondary colorspace
record) is exactly unchanged; in the draw path this happens both when the
mapping failed (`mapResult = none`) and when the selection is the
degenerate point (`min == max`), whatever the mapping would have
returned. -/
theorem null_image_stats_unchanged (toSec : Color → Color) (brightOf : Color → ℚ)
    (W : ℤ) (info : AreaInfo) (sel : BBox2i) :
    calculateColorArea toSec brightOf none W info = info ∧
    ((drawColorAnalysis toSec brightOf sel none true W info).1.rgba = info.rgba ∧
     (drawColorAnalysis toSec brightOf sel none true W info).1.hsv = info.hsv) ∧
    ((sel.minx, sel.miny) = (sel.maxx, sel.maxy) →
      ∀ mapResult : Option (ℤ → ℚ),
        (drawColorAnalysis toSec brightOf sel mapResult true W info).1.rgba =
          info.rgba ∧
        (drawColorAnalysis toSec brightOf sel mapResult true W info).1.hsv =
          info.hsv) := by
  refine ⟨rfl, ?_, ?_⟩
  · unfold drawColorAnalysis
    by_cases hne : (sel.minx, sel.miny) ≠ (sel.maxx, sel.maxy)
    · rw [if_pos hne]
      exact ⟨rfl, rfl⟩
    · rw [if_neg hne]
      exact ⟨rfl, rfl⟩
  · intro heq mapResult
    unfold drawColorAnalysis
    rw [if_neg (not_ne_iff.mpr heq)]
    exact ⟨rfl, rfl⟩

/-- Witness for C10: with the degenerate point selection (3,3)-(3,3) and a
mapped buffer of ones, the statistics fields stay zero. -/
theorem null_image_stats_unchanged_witness :
    calculateColorArea id (fun _ => 0) none 10
        ⟨⟨0, 0, 0, 0⟩,
         ⟨⟨0, 0, 0, 0⟩, ⟨0, 0, 0, 0⟩, ⟨0, 0, 0, 0⟩, ⟨0, 0, 0, 0⟩⟩,
         ⟨⟨0, 0, 0, 0⟩, ⟨0, 0, 0, 0⟩, ⟨0, 0, 0, 0⟩, ⟨0, 0, 0, 0⟩⟩⟩ =
      ⟨⟨0, 0, 0, 0⟩,
       ⟨⟨0, 0, 0, 0⟩, ⟨0, 0, 0, 0⟩, ⟨0, 0, 0, 0⟩, ⟨0, 0, 0, 0⟩⟩,
       ⟨⟨0, 0, 0, 0⟩, ⟨0, 0, 0, 0⟩, ⟨0, 0, 0, 0⟩, ⟨0, 0, 0, 0⟩⟩⟩ ∧
    (drawColorAnalysis id (fun _ => 0) ⟨3, 3, 3, 3⟩ (some fun _ => 1) true 10
        ⟨⟨0, 0, 0, 0⟩,
         ⟨⟨0, 0, 0, 0⟩, ⟨0, 0, 0, 0⟩, ⟨0, 0, 0, 0⟩, ⟨0, 0, 0, 0⟩⟩,
         ⟨⟨0, 0, 0, 0⟩, ⟨0, 0, 0, 0⟩, ⟨0, 0, 0, 0⟩, ⟨0, 0, 0, 0⟩⟩⟩).1.rgba =
      ⟨⟨0, 0, 0, 0⟩, ⟨0, 0, 0, 0⟩, ⟨0, 0, 0, 0⟩, ⟨0, 0, 0, 0⟩⟩ := by
  have h := null_image_stats_unchanged id (fun _ => 0) 10
    ⟨⟨0, 0, 0, 0⟩,
     ⟨⟨0, 0, 0, 0⟩, ⟨0, 0, 0, 0⟩, ⟨0, 0, 0, 0⟩, ⟨0, 0, 0, 0⟩⟩,
     ⟨⟨0, 0, 0, 0⟩, ⟨0, 0, 0, 0⟩, ⟨0, 0, 0, 0⟩, ⟨0, 0, 0, 0⟩⟩⟩ ⟨3, 3, 3, 3⟩
  exact ⟨h.1, (h.2.2 (by decide) (some fun _ => 1)).1⟩
